import Mathlib

/-!
# Verification of `Examples/Evaluation/CPPEvalV2Client/EvalMultithreads.cpp`

A shallow embedding of the multi-threaded evaluation example. The CNTK
library itself (graph operators, `Parameters()` / `Arguments()` / `Outputs()`
introspection, `Forward`) is not part of the source tree under scrutiny; its
observable behaviour is modelled from the specification where a claim needs
it, and every such definition is marked `Modelled from the spec:` in its doc
comment. Everything else is translated directly from the C++ source.
-/

namespace EvalMultithreads

/-- A symbolic CNTK computation graph ("Function"), covering exactly the
operators this example uses. `Parameter` objects are identified by a numeric
id (distinct C++ `Parameter` objects get distinct ids); `InputVariable`s are
identified by their dimension and name, as created by `InputVariable({dim},
DataType::Float, name)`. `combine3` models `Combine` applied to a
three-element list, the only arity this file uses. -/
inductive Func where
  | inputVar (dim : Nat) (name : String)
  | param (id : Nat)
  | times (a b : Func)
  | plus (a b : Func)
  | sigmoid (a : Func)
  | crossEntropyWithSoftmax (z y : Func)
  | classificationError (z y : Func)
  | combine3 (a b c : Func)
  deriving DecidableEq, Repr, Inhabited

/-- Modelled from the spec: the parameter tensors reachable in a composed
graph, in traversal order, with multiplicity. `Parameters()` itself
deduplicates; see `Parameters`. -/
def Func.paramIds : Func → List Nat
  | .inputVar _ _ => []
  | .param i => [i]
  | .times a b => a.paramIds ++ b.paramIds
  | .plus a b => a.paramIds ++ b.paramIds
  | .sigmoid a => a.paramIds
  | .crossEntropyWithSoftmax a b => a.paramIds ++ b.paramIds
  | .classificationError a b => a.paramIds ++ b.paramIds
  | .combine3 a b c => a.paramIds ++ b.paramIds ++ c.paramIds

/-- Modelled from the spec: `Function::Parameters()`, the distinct parameter
tensors of the graph ("three counted collections — parameters, arguments,
outputs"). -/
def Func.Parameters (f : Func) : List Nat := f.paramIds.dedup

/-- Modelled from the spec: the input variables (named inputs) reachable in a
composed graph, with multiplicity. -/
def Func.argVars : Func → List (Nat × String)
  | .inputVar d n => [(d, n)]
  | .param _ => []
  | .times a b => a.argVars ++ b.argVars
  | .plus a b => a.argVars ++ b.argVars
  | .sigmoid a => a.argVars
  | .crossEntropyWithSoftmax a b => a.argVars ++ b.argVars
  | .classificationError a b => a.argVars ++ b.argVars
  | .combine3 a b c => a.argVars ++ b.argVars ++ c.argVars

/-- Modelled from the spec: `Function::Arguments()`, the distinct named
inputs of the graph. -/
def Func.Arguments (f : Func) : List (Nat × String) := f.argVars.dedup

/-- Modelled from the spec: `Function::Outputs()`. A `Combine` exposes the
(distinct) outputs of the combined functions; every primitive function has a
single output, identified with the function itself. -/
def Func.Outputs : Func → List Func
  | .combine3 a b c => ([a] ++ [b] ++ [c]).dedup
  | f => [f]

/-- `FullyConnectedDNNLayerWithSharedParameters`: builds
`nonLinearity(Plus(plusParam, Times(timesParam, input)))`. -/
def FullyConnectedDNNLayerWithSharedParameters (input : Func)
    (timesParam plusParam : Func) (nonLinearity : Func → Func) : Func :=
  nonLinearity (Func.plus plusParam (Func.times timesParam input))

/-- The hidden-layer loop of
`FullyConnectedFeedForwardClassifierNetWithSharedParameters`:
`for (size_t i = 1; i < numHiddenLayers; ++i) root = Layer(root, ts[i-1], ps[i-1])`.
An out-of-bounds access to the parameter arrays (undefined behaviour in the
C++ source) is modelled as `none`. -/
def hiddenLoop (nl : Func → Func) (ts ps : List Func) (i n : Nat) (root : Func) :
    Option Func :=
  if _h : i < n then
    match ts[i - 1]?, ps[i - 1]? with
    | some t, some p =>
        hiddenLoop nl ts ps (i + 1) n
          (FullyConnectedDNNLayerWithSharedParameters root t p nl)
    | _, _ => none
  else some root
termination_by n - i
decreasing_by omega

/-- `FullyConnectedFeedForwardClassifierNetWithSharedParameters`: one input
layer, then the hidden-layer loop, then a final `Times` projection with no
nonlinearity. The `assert(numHiddenLayers >= 1)` is modelled as a guard. -/
def FullyConnectedFeedForwardClassifierNetWithSharedParameters (input : Func)
    (numHiddenLayers : Nat) (inputTimesParam inputPlusParam : Func)
    (hiddenLayerTimesParam hiddenLayerPlusParam : List Func)
    (outputTimesParam : Func) (nonLinearity : Func → Func) : Option Func :=
  if 1 ≤ numHiddenLayers then
    (hiddenLoop nonLinearity hiddenLayerTimesParam hiddenLayerPlusParam 1
        numHiddenLayers
        (FullyConnectedDNNLayerWithSharedParameters input inputTimesParam
          inputPlusParam nonLinearity)).map
      (fun root => Func.times outputTimesParam root)
  else none

/-- Specification-side description of the classifier body (written from the
spec's words, to be compared with the source translation): the input layer,
then `k` further hidden layers, each `nonlinearity(W_i × prev + b_i)`. -/
def specStack (nl : Func → Func) (x win bin : Func) (ts ps : List Func) :
    Nat → Func
  | 0 => nl (Func.plus bin (Func.times win x))
  | k + 1 =>
      nl (Func.plus (ps.getD k default)
        (Func.times (ts.getD k default) (specStack nl x win bin ts ps k)))

/-- Specification-side classifier output: the stack of `H` layers followed by
an unactivated final linear projection. -/
def specClassifierOutput (nl : Func → Func) (x win bin : Func)
    (ts ps : List Func) (wout : Func) (H : Nat) : Func :=
  Func.times wout (specStack nl x win bin ts ps (H - 1))

theorem hiddenLoop_stop (nl : Func → Func) (ts ps : List Func) (i n : Nat)
    (root : Func) (h : ¬ i < n) : hiddenLoop nl ts ps i n root = some root := by
  unfold hiddenLoop
  simp [h]

theorem hiddenLoop_step (nl : Func → Func) (ts ps : List Func) (i n : Nat)
    (root t p : Func) (h : i < n) (ht : ts[i - 1]? = some t)
    (hp : ps[i - 1]? = some p) :
    hiddenLoop nl ts ps i n root =
      hiddenLoop nl ts ps (i + 1) n
        (FullyConnectedDNNLayerWithSharedParameters root t p nl) := by
  conv_lhs => rw [hiddenLoop]
  simp [h, ht, hp]

/-- The hidden-layer loop, started at counter `i` from the stack of `i - 1`
layers, terminates with the full stack of `n - 1` layers. -/
theorem hiddenLoop_spec (nl : Func → Func) (x win bin : Func)
    (ts ps : List Func) (n : Nat) :
    ∀ d i, 1 ≤ i → i + d = n → n - 1 ≤ ts.length → n - 1 ≤ ps.length →
      hiddenLoop nl ts ps i n (specStack nl x win bin ts ps (i - 1)) =
        some (specStack nl x win bin ts ps (n - 1)) := by
  intro d
  induction d with
  | zero =>
      intro i _ hin _ _
      have hstop : ¬ i < n := by omega
      rw [hiddenLoop_stop _ _ _ _ _ _ hstop]
      have : i - 1 = n - 1 := by omega
      rw [this]
  | succ d ih =>
      intro i hi hin hts hps
      have hlt : i < n := by omega
      have hts' : i - 1 < ts.length := by omega
      have hps' : i - 1 < ps.length := by omega
      rw [hiddenLoop_step nl ts ps i n _ (ts.getD (i - 1) default)
          (ps.getD (i - 1) default) hlt
          (by rw [List.getD_eq_getElem _ _ hts']; exact List.getElem?_eq_getElem hts')
          (by rw [List.getD_eq_getElem _ _ hps']; exact List.getElem?_eq_getElem hps')]
      have hstack :
          FullyConnectedDNNLayerWithSharedParameters
              (specStack nl x win bin ts ps (i - 1)) (ts.getD (i - 1) default)
              (ps.getD (i - 1) default) nl =
            specStack nl x win bin ts ps ((i + 1) - 1) := by
        have h1 : (i + 1) - 1 = (i - 1) + 1 := by omega
        rw [h1]
        rfl
      rw [hstack]
      exact ih (i + 1) (by omega) (by omega) hts hps

/-- The parameter identities (ids) handed to one evaluation worker: the
input-layer weight/bias, the hidden-layer weight/bias arrays, and the output
weight, mirroring the parameter arguments of
`EvaluationNewNetworkWithSharedParameters`. -/
structure NetParams where
  inputTimes : Nat
  inputPlus : Nat
  hiddenTimes : List Nat
  hiddenPlus : List Nat
  outputTimes : Nat
  deriving DecidableEq, Repr, Inhabited

/-- Ids of the hidden-layer `Times` parameters for a model with `H` hidden
layers: `numHiddenLayers - 1` distinct fresh tensors, as allocated in
`EvalMultiThreadsWithNewNetwork`. -/
def stdHiddenTimesIds (H : Nat) : List Nat :=
  (List.range (H - 1)).map (fun j => 2 + j)

/-- Ids of the hidden-layer `Plus` parameters: another `numHiddenLayers - 1`
distinct fresh tensors. -/
def stdHiddenPlusIds (H : Nat) : List Nat :=
  (List.range (H - 1)).map (fun j => H + 1 + j)

/-- The shared parameter set built once in `EvalMultiThreadsWithNewNetwork`
(generalised from `numHiddenLayers = 6` to any `H`): `2*(H-1) + 3` distinct
parameter tensors. -/
def stdParamsFor (H : Nat) : NetParams :=
  { inputTimes := 0, inputPlus := 1, hiddenTimes := stdHiddenTimesIds H,
    hiddenPlus := stdHiddenPlusIds H, outputTimes := 2 * H }

/-- The graph-construction part of `EvaluationNewNetworkWithSharedParameters`:
`InputVariable({inputDim}, "Features")`, the classifier body with `Sigmoid`
nonlinearity, `InputVariable({numOutputClasses}, "Labels")`, the
cross-entropy loss and classification-error nodes, and the three-way
`Combine`. -/
def EvaluationNewNetworkBuild (inputDim numOutputClasses numHiddenLayers : Nat)
    (p : NetParams) : Option Func :=
  (FullyConnectedFeedForwardClassifierNetWithSharedParameters
      (Func.inputVar inputDim "Features")
      numHiddenLayers (Func.param p.inputTimes) (Func.param p.inputPlus)
      (p.hiddenTimes.map Func.param) (p.hiddenPlus.map Func.param)
      (Func.param p.outputTimes) Func.sigmoid).map
    (fun co =>
      Func.combine3
        (Func.crossEntropyWithSoftmax co (Func.inputVar numOutputClasses "Labels"))
        (Func.classificationError co (Func.inputVar numOutputClasses "Labels")) co)

/-- The three structural checks of `EvaluationNewNetworkWithSharedParameters`
(lines 73-80): any count mismatch throws `std::runtime_error` with a
descriptive message. -/
def validateNet (numHiddenLayers : Nat) (ffNet : Func) : Except String Unit :=
  if ffNet.Parameters.length ≠ numHiddenLayers * 2 + 1 then
    .error "EvaluationNewNetworkWithSharedParameters: Function does not have expected Parameter count"
  else if ffNet.Arguments.length ≠ 2 then
    .error "EvaluationNewNetworkWithSharedParameters: Function does not have expected Argument count"
  else if ffNet.Outputs.length ≠ 3 then
    .error "EvaluationNewNetworkWithSharedParameters: Function does not have expected Output count"
  else .ok ()

/-- The classifier output built from the standard shared parameters. -/
def coSpec (D H : Nat) : Func :=
  specClassifierOutput Func.sigmoid (Func.inputVar D "Features") (Func.param 0)
    (Func.param 1) ((stdHiddenTimesIds H).map Func.param)
    ((stdHiddenPlusIds H).map Func.param) (Func.param (2 * H)) H

/-- The combined three-output graph built from the standard shared
parameters. -/
def ffNetSpec (D C H : Nat) : Func :=
  Func.combine3
    (Func.crossEntropyWithSoftmax (coSpec D H) (Func.inputVar C "Labels"))
    (Func.classificationError (coSpec D H) (Func.inputVar C "Labels"))
    (coSpec D H)

theorem getD_map_param (l : List Nat) (k : Nat) (hk : k < l.length) :
    (l.map Func.param).getD k default = Func.param (l.getD k 0) := by
  rw [List.getD_eq_getElem _ _ (by simpa using hk), List.getElem_map,
    List.getD_eq_getElem _ _ hk]

/-- Parameter ids collected by a `specStack` of `k + 1` layers. -/
def stackIds (hts hps : List Nat) (w0 b0 : Nat) : Nat → List Nat
  | 0 => [b0, w0]
  | k + 1 => hps.getD k 0 :: hts.getD k 0 :: stackIds hts hps w0 b0 k

theorem specStack_paramIds (hts hps : List Nat) (w0 b0 : Nat) (x : Func)
    (hx : x.paramIds = []) :
    ∀ k, k ≤ hts.length → k ≤ hps.length →
      (specStack Func.sigmoid x (Func.param w0) (Func.param b0)
          (hts.map Func.param) (hps.map Func.param) k).paramIds =
        stackIds hts hps w0 b0 k := by
  intro k
  induction k with
  | zero =>
      intro _ _
      simp [specStack, Func.paramIds, hx, stackIds]
  | succ k ih =>
      intro hk1 hk2
      have hts' : k < hts.length := by omega
      have hps' : k < hps.length := by omega
      simp only [specStack, Func.paramIds, getD_map_param hts k hts',
        getD_map_param hps k hps', ih (by omega) (by omega), stackIds,
        List.singleton_append, List.cons_append, List.nil_append]

theorem specStack_argVars (hts hps : List Nat) (w0 b0 : Nat) (x : Func) :
    ∀ k, k ≤ hts.length → k ≤ hps.length →
      (specStack Func.sigmoid x (Func.param w0) (Func.param b0)
          (hts.map Func.param) (hps.map Func.param) k).argVars = x.argVars := by
  intro k
  induction k with
  | zero =>
      intro _ _
      simp [specStack, Func.argVars]
  | succ k ih =>
      intro hk1 hk2
      have hts' : k < hts.length := by omega
      have hps' : k < hps.length := by omega
      simp only [specStack, Func.argVars, getD_map_param hts k hts',
        getD_map_param hps k hps', ih (by omega) (by omega), List.nil_append]

theorem stackIds_length (hts hps : List Nat) (w0 b0 : Nat) :
    ∀ k, (stackIds hts hps w0 b0 k).length = 2 * k + 2 := by
  intro k
  induction k with
  | zero => rfl
  | succ k ih => simp [stackIds, ih]; omega

theorem stdHiddenTimesIds_getD (H k : Nat) (hk : k < H - 1) :
    (stdHiddenTimesIds H).getD k 0 = 2 + k := by
  rw [List.getD_eq_getElem _ _ (by simpa [stdHiddenTimesIds] using hk)]
  simp [stdHiddenTimesIds]

theorem stdHiddenPlusIds_getD (H k : Nat) (hk : k < H - 1) :
    (stdHiddenPlusIds H).getD k 0 = H + 1 + k := by
  rw [List.getD_eq_getElem _ _ (by simpa [stdHiddenPlusIds] using hk)]
  simp [stdHiddenPlusIds]

/-- The ids of a standard stack of `k + 1` layers are distinct, and each is
either below `2 + k` or in the hidden-plus band `[H+1, H+1+k)`. -/
theorem stdStackIds_nodup (H : Nat) :
    ∀ k, k ≤ H - 1 →
      (stackIds (stdHiddenTimesIds H) (stdHiddenPlusIds H) 0 1 k).Nodup ∧
      ∀ x ∈ stackIds (stdHiddenTimesIds H) (stdHiddenPlusIds H) 0 1 k,
        x < 2 + k ∨ (H + 1 ≤ x ∧ x < H + 1 + k) := by
  intro k
  induction k with
  | zero =>
      intro _
      refine ⟨by simp [stackIds], ?_⟩
      intro x hx
      simp [stackIds] at hx
      rcases hx with h | h <;> omega
  | succ k ih =>
      intro hk
      obtain ⟨hnd, hmem⟩ := ih (by omega)
      have hH2 : 2 ≤ H := by omega
      rw [stackIds, stdHiddenTimesIds_getD H k (by omega),
        stdHiddenPlusIds_getD H k (by omega)]
      constructor
      · refine List.nodup_cons.mpr ⟨?_, List.nodup_cons.mpr ⟨?_, hnd⟩⟩
        · intro hmem'
          rcases List.mem_cons.mp hmem' with h | h
          · omega
          · rcases hmem _ h with h' | h' <;> omega
        · intro hmem'
          rcases hmem _ hmem' with h' | h' <;> omega
      · intro x hx
        rcases List.mem_cons.mp hx with h | hx'
        · omega
        rcases List.mem_cons.mp hx' with h | h
        · omega
        · rcases hmem _ h with h' | h' <;> omega

theorem stdHiddenTimesIds_length (H : Nat) :
    (stdHiddenTimesIds H).length = H - 1 := by simp [stdHiddenTimesIds]

theorem stdHiddenPlusIds_length (H : Nat) :
    (stdHiddenPlusIds H).length = H - 1 := by simp [stdHiddenPlusIds]

theorem coSpec_paramIds (D H : Nat) :
    (coSpec D H).paramIds =
      2 * H :: stackIds (stdHiddenTimesIds H) (stdHiddenPlusIds H) 0 1 (H - 1) := by
  rw [coSpec, specClassifierOutput]
  show Func.paramIds (Func.param (2 * H)) ++ _ = _
  rw [specStack_paramIds _ _ _ _ _ (by rfl) (H - 1)
    (by rw [stdHiddenTimesIds_length]) (by rw [stdHiddenPlusIds_length])]
  rfl

theorem coSpec_paramIds_nodup (D H : Nat) (hH : 1 ≤ H) :
    (coSpec D H).paramIds.Nodup ∧ (coSpec D H).paramIds.length = 2 * H + 1 := by
  obtain ⟨hnd, hmem⟩ := stdStackIds_nodup H (H - 1) (le_refl _)
  rw [coSpec_paramIds]
  refine ⟨List.nodup_cons.mpr ⟨?_, hnd⟩, ?_⟩
  · intro hmem'
    rcases hmem _ hmem' with h | h <;> omega
  · rw [List.length_cons, stackIds_length]
    omega

theorem coSpec_argVars (D H : Nat) :
    (coSpec D H).argVars = [(D, "Features")] := by
  rw [coSpec, specClassifierOutput]
  show Func.argVars (Func.param (2 * H)) ++ _ = _
  rw [specStack_argVars _ _ _ _ _ (H - 1)
    (by rw [stdHiddenTimesIds_length]) (by rw [stdHiddenPlusIds_length])]
  rfl

/-- The classifier builder, started with legal hidden-parameter arrays,
produces exactly the layered structure described by `specClassifierOutput`. -/
theorem net_eq_spec (x win bin : Func) (ts ps : List Func) (wout : Func)
    (nl : Func → Func) (H : Nat) (hH : 1 ≤ H) (hts : H - 1 ≤ ts.length)
    (hps : H - 1 ≤ ps.length) :
    FullyConnectedFeedForwardClassifierNetWithSharedParameters x H win bin ts
        ps wout nl = some (specClassifierOutput nl x win bin ts ps wout H) := by
  rw [FullyConnectedFeedForwardClassifierNetWithSharedParameters, if_pos hH]
  have h0 : FullyConnectedDNNLayerWithSharedParameters x win bin nl =
      specStack nl x win bin ts ps (1 - 1) := rfl
  rw [h0, hiddenLoop_spec nl x win bin ts ps H (H - 1) 1 (le_refl _)
    (by omega) hts hps]
  rfl

theorem buildNet_eq (D C H : Nat) (hH : 1 ≤ H) :
    EvaluationNewNetworkBuild D C H (stdParamsFor H) = some (ffNetSpec D C H) := by
  rw [EvaluationNewNetworkBuild,
    net_eq_spec _ _ _ _ _ _ _ H hH
      (by rw [List.length_map]; exact le_of_eq (stdHiddenTimesIds_length H).symm)
      (by rw [List.length_map]; exact le_of_eq (stdHiddenPlusIds_length H).symm)]
  rfl

theorem ffNetSpec_Parameters_length (D C H : Nat) (hH : 1 ≤ H) :
    (ffNetSpec D C H).Parameters.length = 2 * H + 1 := by
  have hA : (ffNetSpec D C H).paramIds =
      ((coSpec D H).paramIds ++ (coSpec D H).paramIds) ++ (coSpec D H).paramIds := by
    simp [ffNetSpec, Func.paramIds]
  obtain ⟨hnd, hlen⟩ := coSpec_paramIds_nodup D H hH
  calc (ffNetSpec D C H).Parameters.length
      = (ffNetSpec D C H).paramIds.toFinset.card := (List.card_toFinset _).symm
    _ = (coSpec D H).paramIds.toFinset.card := by
        rw [hA]; simp [List.toFinset_append]
    _ = (coSpec D H).paramIds.dedup.length := List.card_toFinset _
    _ = (coSpec D H).paramIds.length := by rw [hnd.dedup]
    _ = 2 * H + 1 := hlen

theorem argVars_combine3 (a b c : Func) :
    (Func.combine3 a b c).argVars = a.argVars ++ b.argVars ++ c.argVars := rfl

theorem argVars_crossEntropy (a b : Func) :
    (Func.crossEntropyWithSoftmax a b).argVars = a.argVars ++ b.argVars := rfl

theorem argVars_classificationError (a b : Func) :
    (Func.classificationError a b).argVars = a.argVars ++ b.argVars := rfl

theorem ffNetSpec_argVars (D C H : Nat) :
    (ffNetSpec D C H).argVars =
      [(D, "Features"), (C, "Labels"), (D, "Features"), (C, "Labels"),
        (D, "Features")] := by
  unfold ffNetSpec
  rw [argVars_combine3, argVars_crossEntropy, argVars_classificationError,
    coSpec_argVars]
  rfl

theorem pair_ne_of_snd_ne {a b : Nat} {s t : String} (h : s ≠ t) :
    ((a, s) : Nat × String) ≠ (b, t) := by
  intro hab
  exact h (congrArg Prod.snd hab)

theorem ffNetSpec_Arguments_length (D C H : Nat) :
    (ffNetSpec D C H).Arguments.length = 2 := by
  rw [Func.Arguments, ffNetSpec_argVars]
  rw [List.dedup_cons_of_mem (by simp), List.dedup_cons_of_mem (by simp),
    List.dedup_cons_of_mem (by simp),
    List.dedup_cons_of_not_mem
      (by simp only [List.mem_singleton]
          exact pair_ne_of_snd_ne (by decide)),
    List.dedup_cons_of_not_mem (by simp)]
  rfl

theorem Outputs_combine3 (a b c : Func) :
    (Func.combine3 a b c).Outputs = [a, b, c].dedup := rfl

theorem ffNetSpec_Outputs_length (D C H : Nat) :
    (ffNetSpec D C H).Outputs.length = 3 := by
  have hco : ∃ w r, coSpec D H = Func.times w r := ⟨_, _, rfl⟩
  obtain ⟨w, r, hw⟩ := hco
  unfold ffNetSpec
  rw [Outputs_combine3, hw,
    List.dedup_cons_of_not_mem (by intro hmem; simp at hmem),
    List.dedup_cons_of_not_mem (by intro hmem; simp at hmem),
    List.dedup_cons_of_not_mem (by simp)]
  rfl

/-- C1. For every hidden-layer count `H ≥ 1`, the graph assembled by
`EvaluationNewNetworkWithSharedParameters` from the shared parameter set
reports exactly `2*H + 1` parameters, exactly `2` arguments and exactly `3`
outputs, so its construction-time validation succeeds; and whenever any of
the three counts of a graph differs from its expected value, the validation
raises a fatal error (`Except.error`, modelling the thrown
`std::runtime_error`) carrying a descriptive (non-empty) message, with no
retry or degraded mode. -/
theorem claim_C1_structural_counts (D C H : Nat) (hH : 1 ≤ H) :
    (∃ ffNet, EvaluationNewNetworkBuild D C H (stdParamsFor H) = some ffNet ∧
      ffNet.Parameters.length = 2 * H + 1 ∧ ffNet.Arguments.length = 2 ∧
      ffNet.Outputs.length = 3 ∧ validateNet H ffNet = Except.ok ()) ∧
    (∀ g : Func,
      g.Parameters.length ≠ 2 * H + 1 ∨ g.Arguments.length ≠ 2 ∨
        g.Outputs.length ≠ 3 →
      ∃ msg, validateNet H g = Except.error msg ∧ msg ≠ "") := by
  constructor
  · refine ⟨ffNetSpec D C H, buildNet_eq D C H hH,
      ffNetSpec_Parameters_length D C H hH, ffNetSpec_Arguments_length D C H,
      ffNetSpec_Outputs_length D C H, ?_⟩
    rw [validateNet, if_neg (by rw [ffNetSpec_Parameters_length D C H hH]; omega),
      if_neg (by rw [ffNetSpec_Arguments_length D C H]; omega),
      if_neg (by rw [ffNetSpec_Outputs_length D C H]; omega)]
  · intro g hg
    by_cases h1 : g.Parameters.length ≠ H * 2 + 1
    · exact ⟨_, by rw [validateNet, if_pos h1], by decide⟩
    by_cases h2 : g.Arguments.length ≠ 2
    · exact ⟨_, by rw [validateNet, if_neg h1, if_pos h2], by decide⟩
    have h3 : g.Outputs.length ≠ 3 := by omega
    exact ⟨_, by rw [validateNet, if_neg h1, if_neg h2, if_pos h3], by decide⟩

/-- Closed witness for C1 at `inputDim = 1`, `numOutputClasses = 2`,
`H = 1`. -/
theorem claim_C1_witness :
    (∃ ffNet, EvaluationNewNetworkBuild 1 2 1 (stdParamsFor 1) = some ffNet ∧
      ffNet.Parameters.length = 2 * 1 + 1 ∧ ffNet.Arguments.length = 2 ∧
      ffNet.Outputs.length = 3 ∧ validateNet 1 ffNet = Except.ok ()) ∧
    (∀ g : Func,
      g.Parameters.length ≠ 2 * 1 + 1 ∨ g.Arguments.length ≠ 2 ∨
        g.Outputs.length ≠ 3 →
      ∃ msg, validateNet 1 g = Except.error msg ∧ msg ≠ "") :=
  claim_C1_structural_counts 1 2 1 (by decide)

/-- C2. For every rank-1 input variable, the assembled classifier output is
the input layer `nonlinearity(W_in × x + b_in)`, followed by exactly `H - 1`
further layers `nonlinearity(W_i × prev + b_i)`, followed by a final linear
projection `W_out × prev` with no nonlinearity applied; both sides are pure
Lean functions, so the composition has no side effects. -/
theorem claim_C2_classifier_structure (x win bin : Func) (ts ps : List Func)
    (wout : Func) (nl : Func → Func) (H : Nat) (hH : 1 ≤ H)
    (hts : H - 1 ≤ ts.length) (hps : H - 1 ≤ ps.length) :
    FullyConnectedFeedForwardClassifierNetWithSharedParameters x H win bin ts
        ps wout nl = some (specClassifierOutput nl x win bin ts ps wout H) :=
  net_eq_spec x win bin ts ps wout nl H hH hts hps

/-- Closed witness for C2 at a two-hidden-layer instance. -/
theorem claim_C2_witness :
    FullyConnectedFeedForwardClassifierNetWithSharedParameters
        (Func.inputVar 3 "Features") 2 (Func.param 0) (Func.param 1)
        [Func.param 2] [Func.param 3] (Func.param 4) Func.sigmoid =
      some (specClassifierOutput Func.sigmoid (Func.inputVar 3 "Features")
        (Func.param 0) (Func.param 1) [Func.param 2] [Func.param 3]
        (Func.param 4) 2) :=
  claim_C2_classifier_structure (Func.inputVar 3 "Features") (Func.param 0)
    (Func.param 1) [Func.param 2] [Func.param 3] (Func.param 4) Func.sigmoid 2
    (by decide) (by decide) (by decide)

/-- `RAND_MAX` of the C library (glibc value). The C standard specifies that
`rand()` returns values in the closed range `[0, RAND_MAX]`. -/
def RAND_MAX : Nat := 2147483647

/-- A model of the C library pseudo-random generator: `srand` maps a seed to
a fresh generator state (discarding whatever state was current), `next`
models one `rand()` call, returning the drawn value and the next state. -/
structure RandModel (R : Type) where
  srand : Nat → R
  next : R → Nat × R

/-- A conforming `rand` implementation never returns more than `RAND_MAX`. -/
def RandModel.conforming {R : Type} (g : RandModel R) : Prop :=
  ∀ s : R, (g.next s).1 ≤ RAND_MAX

/-- The generator state after `n` further `rand()` calls. -/
def streamDrop {R : Type} (g : RandModel R) : Nat → R → R
  | 0, s => s
  | n + 1, s => streamDrop g n (g.next s).2

/-- The values of `n` successive `rand()` calls together with the final
state. -/
def randTake {R : Type} (g : RandModel R) : Nat → R → List Nat × R
  | 0, s => ([], s)
  | n + 1, s =>
      (((g.next s).1 :: (randTake g n (g.next s).2).1),
        (randTake g n (g.next s).2).2)

/-- `inputData[i] = ((float)rand()) / RAND_MAX` (line 91), modelled as exact
rational division. -/
def toUnit (r : Nat) : ℚ := (r : ℚ) / (RAND_MAX : ℚ)

/-- The one-hot label write loop (lines 96-98): the buffer starts as all
zeros and, for each sample `i`, entry `i*numOutputClasses + rand() %
numOutputClasses` is set to 1. `i` is the next sample index, `rem` the
number of samples still to process. -/
def genLabelsLoop {R : Type} (g : RandModel R) (C : Nat) :
    Nat → Nat → List Nat → R → List Nat × R
  | _, 0, buf, s => (buf, s)
  | i, rem + 1, buf, s =>
      genLabelsLoop g C (i + 1) rem
        (buf.set (i * C + (g.next s).1 % C) 1) (g.next s).2

/-- One `ffNet->Forward` invocation of the evaluation loop: the shapes and
payloads of the freshly generated input and label batches passed to it.
`rawInput` holds the raw `rand()` draws; the float values fed to the graph
are `inputValues`. -/
structure ForwardCall where
  inputShape : List Nat
  rawInput : List Nat
  labelShape : List Nat
  labelData : List Nat
  deriving DecidableEq, Repr, Inhabited

/-- The rational values of the input buffer of a forward call. -/
def inputValues (c : ForwardCall) : List ℚ := c.rawInput.map toUnit

/-- One iteration of the evaluation loop (lines 87-106): generate
`inputDim*numSamples` uniform draws, then one one-hot row per sample, wrap
them with shapes `{inputDim, 1, numSamples}` and `{numOutputClasses, 1,
numSamples}`, and call `Forward`. -/
def driverIteration {R : Type} (g : RandModel R)
    (inputDim numOutputClasses numSamples : Nat) (s : R) : ForwardCall × R :=
  ({ inputShape := [inputDim, 1, numSamples],
     rawInput := (randTake g (inputDim * numSamples) s).1,
     labelShape := [numOutputClasses, 1, numSamples],
     labelData :=
       (genLabelsLoop g numOutputClasses 0 numSamples
         (List.replicate (numOutputClasses * numSamples) 0)
         (randTake g (inputDim * numSamples) s).2).1 },
   (genLabelsLoop g numOutputClasses 0 numSamples
     (List.replicate (numOutputClasses * numSamples) 0)
     (randTake g (inputDim * numSamples) s).2).2)

/-- The `for (size_t t = 0; t < iterationCount; ++t)` loop, by remaining
iteration count. -/
def driverLoop {R : Type} (g : RandModel R) (D C S : Nat) :
    Nat → R → List ForwardCall
  | 0, _ => []
  | t + 1, s =>
      (driverIteration g D C S s).1 ::
        driverLoop g D C S t (driverIteration g D C S s).2

set_option linter.unusedVariables false in
/-- The evaluation-driver part of `EvaluationNewNetworkWithSharedParameters`
(lines 82-106): `iterationCount = 4`, `srand(2)` — which overwrites whatever
state `state` the generator had, so `state` is deliberately unused — and
`numSamples = 3`. -/
def evalDriverTrace {R : Type} (g : RandModel R)
    (inputDim numOutputClasses : Nat) (state : R) : List ForwardCall :=
  driverLoop g inputDim numOutputClasses 3 4 (g.srand 2)

/-- The whole of `EvaluationNewNetworkWithSharedParameters`: build the graph
(sharing the given parameters), run the three structural checks — throwing
on mismatch — then run the four evaluation iterations. -/
def EvaluationNewNetworkWithSharedParameters {R : Type} (g : RandModel R)
    (inputDim numOutputClasses numHiddenLayers : Nat) (p : NetParams)
    (state : R) : Except String (List ForwardCall) :=
  match EvaluationNewNetworkBuild inputDim numOutputClasses numHiddenLayers p with
  | none => Except.error "assertion failed: numHiddenLayers >= 1"
  | some ffNet =>
      match validateNet numHiddenLayers ffNet with
      | Except.error msg => Except.error msg
      | Except.ok () => Except.ok (evalDriverTrace g inputDim numOutputClasses state)

theorem streamDrop_add {R : Type} (g : RandModel R) (m n : Nat) :
    ∀ s, streamDrop g (m + n) s = streamDrop g n (streamDrop g m s) := by
  induction m with
  | zero => intro s; rw [Nat.zero_add]; rfl
  | succ m ih =>
      intro s
      have h : m + 1 + n = (m + n) + 1 := by omega
      rw [h]
      show streamDrop g (m + n) (g.next s).2 = _
      rw [ih]
      rfl

theorem randTake_snd {R : Type} (g : RandModel R) :
    ∀ n s, (randTake g n s).2 = streamDrop g n s := by
  intro n
  induction n with
  | zero => intro s; rfl
  | succ n ih => intro s; simp [randTake, streamDrop, ih]

theorem genLabelsLoop_snd {R : Type} (g : RandModel R) (C : Nat) :
    ∀ rem i buf s, (genLabelsLoop g C i rem buf s).2 = streamDrop g rem s := by
  intro rem
  induction rem with
  | zero => intro i buf s; rfl
  | succ rem ih => intro i buf s; simp [genLabelsLoop, streamDrop, ih]

theorem driverIteration_snd {R : Type} (g : RandModel R) (D C S : Nat) (s : R) :
    (driverIteration g D C S s).2 = streamDrop g (D * S + S) s := by
  show (genLabelsLoop g C 0 S _ (randTake g (D * S) s).2).2 = _
  rw [genLabelsLoop_snd, randTake_snd, ← streamDrop_add]

theorem driverLoop_length {R : Type} (g : RandModel R) (D C S : Nat) :
    ∀ t s, (driverLoop g D C S t s).length = t := by
  intro t
  induction t with
  | zero => intro s; rfl
  | succ t ih => intro s; simp [driverLoop, ih]

theorem driverLoop_getD {R : Type} (g : RandModel R) (D C S : Nat) :
    ∀ t k s, k < t →
      (driverLoop g D C S t s).getD k default =
        (driverIteration g D C S (streamDrop g (k * (D * S + S)) s)).1 := by
  intro t
  induction t with
  | zero => intro k s hk; omega
  | succ t ih =>
      intro k s hk
      match k with
      | 0 => rw [Nat.zero_mul]; rfl
      | k + 1 =>
          show (driverLoop g D C S t (driverIteration g D C S s).2).getD k default = _
          rw [ih k _ (by omega), driverIteration_snd, ← streamDrop_add,
            show (D * S + S) + k * (D * S + S) = (k + 1) * (D * S + S) by ring]

theorem mem_driverLoop {R : Type} (g : RandModel R) (D C S : Nat) :
    ∀ t s call, call ∈ driverLoop g D C S t s →
      ∃ s0, call = (driverIteration g D C S s0).1 := by
  intro t
  induction t with
  | zero => intro s call hc; simp [driverLoop] at hc
  | succ t ih =>
      intro s call hc
      rcases List.mem_cons.mp hc with h | h
      · exact ⟨s, h⟩
      · exact ih _ call h

/-- A one-hot row: `C` zeros with entry `j` set to 1. -/
def oneHot (C j : Nat) : List Nat := (List.replicate C 0).set j 1

/-- The label rows generated for `rem` successive samples: one one-hot block
per sample, hot index `rand() % C`. -/
def labelRows {R : Type} (g : RandModel R) (C : Nat) : Nat → R → List Nat
  | 0, _ => []
  | rem + 1, s => oneHot C ((g.next s).1 % C) ++ labelRows g C rem (g.next s).2

theorem set_append_right {α : Type} (l1 : List α) :
    ∀ (l2 : List α) (n : Nat) (a : α),
      (l1 ++ l2).set (l1.length + n) a = l1 ++ l2.set n a := by
  induction l1 with
  | nil => intro l2 n a; simp
  | cons x l1 ih =>
      intro l2 n a
      rw [show (x :: l1).length + n = (l1.length + n) + 1 from by
        rw [List.length_cons]; omega]
      show x :: (l1 ++ l2).set (l1.length + n) a = x :: (l1 ++ l2.set n a)
      rw [ih]

theorem set_append_left {α : Type} (l1 : List α) :
    ∀ (l2 : List α) (n : Nat) (a : α), n < l1.length →
      (l1 ++ l2).set n a = l1.set n a ++ l2 := by
  induction l1 with
  | nil => intro l2 n a h; simp at h
  | cons x l1 ih =>
      intro l2 n a h
      match n with
      | 0 => rfl
      | n + 1 =>
          show x :: (l1 ++ l2).set n a = x :: (l1.set n a ++ l2)
          rw [ih l2 n a (by simpa using h)]

theorem oneHot_length (C j : Nat) : (oneHot C j).length = C := by
  simp [oneHot]

/-- The imperative one-hot write loop equals the functional row
description. -/
theorem genLabelsLoop_spec {R : Type} (g : RandModel R) (C : Nat) (hC : 0 < C) :
    ∀ rem i (done : List Nat) s, done.length = i * C →
      (genLabelsLoop g C i rem (done ++ List.replicate (C * rem) 0) s).1 =
        done ++ labelRows g C rem s := by
  intro rem
  induction rem with
  | zero =>
      intro i done s _
      show done ++ List.replicate (C * 0) 0 = done ++ labelRows g C 0 s
      rw [Nat.mul_zero]
      rfl
  | succ rem ih =>
      intro i done s hdone
      simp only [genLabelsLoop]
      have hsplit : List.replicate (C * (rem + 1)) 0 =
          List.replicate C (0 : Nat) ++ List.replicate (C * rem) 0 := by
        rw [← List.replicate_add]
        congr 1
        ring
      have hmod : (g.next s).1 % C < C := Nat.mod_lt _ hC
      rw [hsplit, ← hdone, set_append_right,
        set_append_left _ _ _ _ (by simpa using hmod)]
      have hlen1 : (done ++ (List.replicate C (0 : Nat)).set ((g.next s).1 % C) 1).length
          = (i + 1) * C := by
        simp [hdone]
        ring
      have hassoc : done ++ ((List.replicate C (0:Nat)).set ((g.next s).1 % C) 1
            ++ List.replicate (C * rem) 0) =
          (done ++ (List.replicate C (0:Nat)).set ((g.next s).1 % C) 1)
            ++ List.replicate (C * rem) 0 := by
        rw [List.append_assoc]
      rw [hassoc, ih (i + 1) _ (g.next s).2 hlen1, labelRows,
        List.append_assoc]
      rfl

theorem labelRows_length {R : Type} (g : RandModel R) (C : Nat) :
    ∀ rem s, (labelRows g C rem s).length = C * rem := by
  intro rem
  induction rem with
  | zero => intro s; simp [labelRows]
  | succ rem ih =>
      intro s
      simp [labelRows, oneHot_length, ih]
      ring

theorem oneHot_getD (C j k : Nat) (_hj : j < C) (hk : k < C) :
    (oneHot C j).getD k 0 = if k = j then 1 else 0 := by
  have hk' : k < (oneHot C j).length := by rw [oneHot_length]; exact hk
  rw [List.getD_eq_getElem _ _ hk']
  unfold oneHot
  rw [List.getElem_set]
  by_cases h : j = k
  · simp [h]
  · rw [if_neg h, if_neg (fun hkj => h hkj.symm), List.getElem_replicate]

/-- Each row of the generated label block is one-hot. -/
theorem labelRows_onehot {R : Type} (g : RandModel R) (C : Nat) (hC : 0 < C) :
    ∀ rem s i, i < rem →
      ∃ j, j < C ∧ ∀ k, k < C →
        (labelRows g C rem s).getD (i * C + k) 0 = if k = j then 1 else 0 := by
  intro rem
  induction rem with
  | zero => intro s i hi; omega
  | succ rem ih =>
      intro s i hi
      match i with
      | 0 =>
          refine ⟨(g.next s).1 % C, Nat.mod_lt _ hC, ?_⟩
          intro k hk
          rw [labelRows, Nat.zero_mul, Nat.zero_add,
            List.getD_append _ _ _ _ (by rw [oneHot_length]; exact hk),
            oneHot_getD C _ k (Nat.mod_lt _ hC) hk]
      | i + 1 =>
          obtain ⟨j, hj, hrow⟩ := ih (g.next s).2 i (by omega)
          refine ⟨j, hj, ?_⟩
          intro k hk
          have hidx : (i + 1) * C + k = (oneHot C ((g.next s).1 % C)).length
              + (i * C + k) := by
            rw [oneHot_length]
            ring
          rw [labelRows, hidx, List.getD_append_right _ _ _ _ (by omega),
            Nat.add_sub_cancel_left]
          exact hrow k hk

/-- The label buffer of one driver iteration, in functional row form. -/
theorem driverIteration_labelData {R : Type} (g : RandModel R)
    (D C S : Nat) (hC : 0 < C) (s : R) :
    (driverIteration g D C S s).1.labelData =
      labelRows g C S (streamDrop g (D * S) s) := by
  show (genLabelsLoop g C 0 S (List.replicate (C * S) 0) _).1 = _
  have h0 : List.replicate (C * S) (0 : Nat) =
      ([] : List Nat) ++ List.replicate (C * S) 0 := rfl
  rw [randTake_snd, h0, genLabelsLoop_spec g C hC S 0 [] _ (by simp)]
  rfl

/-- C4. In every iteration of the evaluation driver, the generated label
buffer is one-hot per sample: it has `numOutputClasses * numSamples`
entries (`numSamples = 3`), and for each sample row there is exactly one
index holding 1 while every other entry of that row is 0. -/
theorem claim_C4_one_hot_labels {R : Type} (g : RandModel R) (D C : Nat)
    (hC : 0 < C) (state : R) :
    ∀ call ∈ evalDriverTrace g D C state,
      call.labelData.length = C * 3 ∧
      ∀ i, i < 3 → ∃ j, j < C ∧ ∀ k, k < C →
        call.labelData.getD (i * C + k) 0 = if k = j then 1 else 0 := by
  intro call hcall
  obtain ⟨s0, hs0⟩ := mem_driverLoop g D C 3 4 (g.srand 2) call hcall
  rw [hs0, driverIteration_labelData g D C 3 hC s0]
  refine ⟨labelRows_length g C 3 _, ?_⟩
  intro i hi
  exact labelRows_onehot g C hC 3 _ i hi

/-- A trivial conforming generator: `rand()` always returns 0. -/
def zeroRand : RandModel Nat := { srand := fun seed => seed, next := fun s => (0, s + 1) }

/-- Closed witness for C4: the second sample row of the first generated
label batch, for `numOutputClasses = 3`. -/
theorem claim_C4_witness :
    ((evalDriverTrace zeroRand 2 3 0).getD 0 default ∈
        evalDriverTrace zeroRand 2 3 0) ∧
    ((evalDriverTrace zeroRand 2 3 0).getD 0 default).labelData.length = 3 * 3 ∧
    (∃ j, j < 3 ∧ ∀ k, k < 3 →
      ((evalDriverTrace zeroRand 2 3 0).getD 0 default).labelData.getD
        (1 * 3 + k) 0 = if k = j then 1 else 0) :=
  ⟨by decide,
    (claim_C4_one_hot_labels zeroRand 2 3 (by decide) 0 _ (by decide)).1,
    (claim_C4_one_hot_labels zeroRand 2 3 (by decide) 0 _ (by decide)).2 1
      (by decide)⟩

theorem randTake_mem_le {R : Type} (g : RandModel R) (hg : g.conforming) :
    ∀ n s r, r ∈ (randTake g n s).1 → r ≤ RAND_MAX := by
  intro n
  induction n with
  | zero => intro s r hr; simp [randTake] at hr
  | succ n ih =>
      intro s r hr
      rcases List.mem_cons.mp hr with h | h
      · rw [h]; exact hg s
      · exact ih _ r h

theorem toUnit_nonneg (r : Nat) : 0 ≤ toUnit r := by
  unfold toUnit
  positivity

theorem toUnit_le_one (r : Nat) (h : r ≤ RAND_MAX) : toUnit r ≤ 1 := by
  unfold toUnit
  rw [div_le_one (by norm_num [RAND_MAX])]
  exact_mod_cast h

/-- C3, amended. For a conforming `rand` (values in the closed range
`[0, RAND_MAX]`), every element of every generated input buffer lies in the
closed interval `[0, 1]`; the original half-open bound `v < 1` is not
guaranteed, because `rand()` may return `RAND_MAX` itself (see the
counterexample). -/
theorem claim_C3_amended_unit_interval {R : Type} (g : RandModel R)
    (hg : g.conforming) (D C : Nat) (state : R) :
    ∀ call ∈ evalDriverTrace g D C state, ∀ v ∈ inputValues call,
      0 ≤ v ∧ v ≤ 1 := by
  intro call hcall v hv
  obtain ⟨s0, hs0⟩ := mem_driverLoop g D C 3 4 (g.srand 2) call hcall
  rw [hs0] at hv
  obtain ⟨r, hr, hrv⟩ := List.mem_map.mp hv
  have hrle : r ≤ RAND_MAX := randTake_mem_le g hg (D * 3) s0 r hr
  exact hrv ▸ ⟨toUnit_nonneg r, toUnit_le_one r hrle⟩

/-- Closed witness for the amended C3: the first input value generated by a
conforming all-zero generator. -/
theorem claim_C3_witness : 0 ≤ toUnit 0 ∧ toUnit 0 ≤ 1 :=
  claim_C3_amended_unit_interval zeroRand (fun _ => Nat.zero_le _) 1 2 0
    ((evalDriverTrace zeroRand 1 2 0).getD 0 default) (by decide)
    (toUnit 0) (List.mem_map.mpr ⟨0, by decide, rfl⟩)

/-- A conforming generator whose `rand()` always returns `RAND_MAX` — the C
standard allows this value. -/
def maxRand : RandModel Unit :=
  { srand := fun _ => (), next := fun _ => (RAND_MAX, ()) }

/-- Counterexample to C3 as stated: under the conforming generator
`maxRand`, the first generated input buffer contains the value 1, which does
not satisfy `v < 1`. -/
theorem claim_C3_counterexample :
    maxRand.conforming ∧
    (evalDriverTrace maxRand 1 2 ()).getD 0 default ∈
      evalDriverTrace maxRand 1 2 () ∧
    toUnit RAND_MAX ∈
      inputValues ((evalDriverTrace maxRand 1 2 ()).getD 0 default) ∧
    toUnit RAND_MAX = 1 ∧ ¬ (toUnit RAND_MAX < 1) := by
  have h1 : toUnit RAND_MAX = 1 := by norm_num [toUnit, RAND_MAX]
  refine ⟨fun _ => le_refl _, by decide, ?_, h1, ?_⟩
  · exact List.mem_map.mpr ⟨RAND_MAX, by decide, rfl⟩
  · rw [h1]
    exact lt_irrefl 1

/-- The shapes observed by `Forward` after evaluation. -/
structure ForwardResult where
  inputShapeAfter : List Nat
  labelShapeAfter : List Nat
  deriving DecidableEq, Repr

/-- Modelled from the spec: the external runtime's `Forward` entry point
takes the input-variable→tensor mapping (the views are created read-only)
and populates the output mapping; it does not modify the shapes of the
passed input and label values. -/
def forwardEvaluate (_net : Func) (call : ForwardCall) : ForwardResult :=
  { inputShapeAfter := call.inputShape, labelShapeAfter := call.labelShape }

/-- C5. Every iteration passes the feature batch with shape
`[inputDim, 1, numSamples]` and the label batch with shape
`[numOutputClasses, 1, numSamples]` (`numSamples = 3`), and forward
evaluation leaves this shape contract unchanged. -/
theorem claim_C5_shape_contract {R : Type} (g : RandModel R) (D C : Nat)
    (state : R) :
    ∀ call ∈ evalDriverTrace g D C state,
      call.inputShape = [D, 1, 3] ∧ call.labelShape = [C, 1, 3] ∧
      (forwardEvaluate (ffNetSpec D C 6) call).inputShapeAfter = [D, 1, 3] ∧
      (forwardEvaluate (ffNetSpec D C 6) call).labelShapeAfter = [C, 1, 3] := by
  intro call hcall
  obtain ⟨s0, hs0⟩ := mem_driverLoop g D C 3 4 (g.srand 2) call hcall
  rw [hs0]
  exact ⟨rfl, rfl, rfl, rfl⟩

/-- Closed witness for C5 at `inputDim = 2`, `numOutputClasses = 3`. -/
theorem claim_C5_witness :
    ((evalDriverTrace zeroRand 2 3 0).getD 0 default).inputShape = [2, 1, 3] ∧
    ((evalDriverTrace zeroRand 2 3 0).getD 0 default).labelShape = [3, 1, 3] ∧
    (forwardEvaluate (ffNetSpec 2 3 6)
      ((evalDriverTrace zeroRand 2 3 0).getD 0 default)).inputShapeAfter =
      [2, 1, 3] ∧
    (forwardEvaluate (ffNetSpec 2 3 6)
      ((evalDriverTrace zeroRand 2 3 0).getD 0 default)).labelShapeAfter =
      [3, 1, 3] :=
  claim_C5_shape_contract zeroRand 2 3 0
    ((evalDriverTrace zeroRand 2 3 0).getD 0 default) (by decide)

/-- C7. Every driver invocation performs exactly `iterationCount = 4`
forward calls, and the `t`-th call is fed exactly the batches generated in
iteration `t`: the input draws and label draws come from the stream segment
starting `t * (inputDim*numSamples + numSamples)` draws after `srand(2)`,
so each batch is freshly generated in its own iteration and belongs to no
other iteration's disjoint segment. -/
theorem claim_C7_four_fresh_iterations {R : Type} (g : RandModel R)
    (D C : Nat) (state : R) :
    (evalDriverTrace g D C state).length = 4 ∧
    ∀ t, t < 4 →
      (evalDriverTrace g D C state).getD t default =
        (driverIteration g D C 3 (streamDrop g (t * (D * 3 + 3)) (g.srand 2))).1 :=
  ⟨driverLoop_length g D C 3 4 (g.srand 2),
    fun t ht => driverLoop_getD g D C 3 4 t (g.srand 2) ht⟩

/-- A counting generator, used to give the C7 witness concrete distinct
draws. -/
def countRand : RandModel Nat :=
  { srand := fun seed => seed, next := fun s => (s, s + 1) }

/-- Closed witness for C7: the trace has length 4 and its third call is the
one generated from the stream segment at offset `2 * (1*3 + 3)`. -/
theorem claim_C7_witness :
    (evalDriverTrace countRand 1 2 99).length = 4 ∧
    (evalDriverTrace countRand 1 2 99).getD 2 default =
      (driverIteration countRand 1 2 3
        (streamDrop countRand (2 * (1 * 3 + 3)) (countRand.srand 2))).1 :=
  ⟨(claim_C7_four_fresh_iterations countRand 1 2 99).1,
    (claim_C7_four_fresh_iterations countRand 1 2 99).2 2 (by decide)⟩

/-- C9. The driver reseeds with the constant seed 2 before generating any
data (`srand(randSeed)` with `randSeed = 2`), so its behaviour is
independent of the generator state it inherits: two invocations with the
same dimensions and the same `rand` implementation — in particular any two
worker threads, modelled as atomic invocations — produce identical
sequences of input and label batches. -/
theorem claim_C9_constant_reseed {R : Type} (g : RandModel R) (D C : Nat)
    (s1 s2 : R) :
    evalDriverTrace g D C s1 = evalDriverTrace g D C s2 ∧
    EvaluationNewNetworkWithSharedParameters g D C 6 (stdParamsFor 6) s1 =
      EvaluationNewNetworkWithSharedParameters g D C 6 (stdParamsFor 6) s2 :=
  ⟨rfl, rfl⟩

/-- The observable trace of `EvalMultiThreadsWithNewNetwork`: the run of
each spawned worker, in spawn order, and the join diagnostics, in join
order. -/
structure FanoutTrace where
  workerRuns : List (Except String (List ForwardCall))
  joinMessages : List String
  deriving Repr

/-- The join diagnostic `fprintf(stderr, "thread %d joined.\n", th)`. -/
def mkJoinMessage (th : Nat) : String := "thread " ++ toString th ++ " joined."

/-- `EvalMultiThreadsWithNewNetwork` (lines 109-148): builds one shared
parameter set (ids `stdParamsFor 6`; `inputDim = 937`, `numOutputClasses =
9304`, `numHiddenLayers = 6`, arrays of `6 - 1` hidden parameters), spawns
`threadCount` workers each running
`EvaluationNewNetworkWithSharedParameters` against those same shared
parameters — thread `th` inheriting whatever generator state `states th`
the scheduler leaves it — then joins all of them, printing one diagnostic
per join. -/
def EvalMultiThreadsWithNewNetwork {R : Type} (g : RandModel R)
    (threadCount : Nat) (states : Nat → R) : FanoutTrace :=
  { workerRuns := (List.range threadCount).map (fun th =>
      EvaluationNewNetworkWithSharedParameters g 937 9304 6 (stdParamsFor 6)
        (states th)),
    joinMessages := (List.range threadCount).map mkJoinMessage }

theorem getD_map_range {α : Type} (f : Nat → α) (n k : Nat) (d : α)
    (hk : k < n) : ((List.range n).map f).getD k d = f k := by
  rw [List.getD_eq_getElem _ _ (by simpa using hk), List.getElem_map,
    List.getElem_range]

/-- C6. For every thread count `T`, the fan-out spawns exactly `T` workers,
each running the network-assembly + evaluation-driver sequence against the
same shared parameter set, and joins exactly `T` threads, emitting exactly
one join diagnostic per joined thread with its index; moreover every worker
performs the same run. -/
theorem claim_C6_thread_fanout {R : Type} (g : RandModel R)
    (threadCount : Nat) (states : Nat → R) :
    (EvalMultiThreadsWithNewNetwork g threadCount states).workerRuns.length
        = threadCount ∧
    (EvalMultiThreadsWithNewNetwork g threadCount states).joinMessages.length
        = threadCount ∧
    (∀ th, th < threadCount →
      (EvalMultiThreadsWithNewNetwork g threadCount states).joinMessages.getD
          th "" = mkJoinMessage th) ∧
    (∀ th, th < threadCount →
      (EvalMultiThreadsWithNewNetwork g threadCount states).workerRuns.getD
          th (Except.error "") =
        EvaluationNewNetworkWithSharedParameters g 937 9304 6 (stdParamsFor 6)
          (states th)) ∧
    (∀ th1 th2, th1 < threadCount → th2 < threadCount →
      (EvalMultiThreadsWithNewNetwork g threadCount states).workerRuns.getD
          th1 (Except.error "") =
        (EvalMultiThreadsWithNewNetwork g threadCount states).workerRuns.getD
          th2 (Except.error "")) := by
  refine ⟨by simp [EvalMultiThreadsWithNewNetwork],
    by simp [EvalMultiThreadsWithNewNetwork], ?_, ?_, ?_⟩
  · intro th hth
    exact getD_map_range mkJoinMessage threadCount th "" hth
  · intro th hth
    exact getD_map_range _ threadCount th _ hth
  · intro th1 th2 h1 h2
    show ((List.range threadCount).map _).getD th1 _ =
      ((List.range threadCount).map _).getD th2 _
    rw [getD_map_range _ threadCount th1 _ h1,
      getD_map_range _ threadCount th2 _ h2]
    exact rfl

/-- Closed witness for C6 at thread counts 1, 4 and 16. -/
theorem claim_C6_witness :
    (EvalMultiThreadsWithNewNetwork countRand 1 (fun _ => 0)).joinMessages.length = 1 ∧
    (EvalMultiThreadsWithNewNetwork countRand 4 (fun _ => 0)).workerRuns.length = 4 ∧
    (EvalMultiThreadsWithNewNetwork countRand 16 (fun _ => 0)).joinMessages.length = 16 ∧
    (EvalMultiThreadsWithNewNetwork countRand 4 (fun _ => 0)).joinMessages.getD 3 ""
      = mkJoinMessage 3 :=
  ⟨(claim_C6_thread_fanout countRand 1 (fun _ => 0)).2.1,
    (claim_C6_thread_fanout countRand 4 (fun _ => 0)).1,
    (claim_C6_thread_fanout countRand 16 (fun _ => 0)).2.1,
    (claim_C6_thread_fanout countRand 4 (fun _ => 0)).2.2.1 3 (by decide)⟩

theorem hiddenLoop_total (nl : Func → Func) (ts ps : List Func) (n : Nat) :
    ∀ d i root, 1 ≤ i → i + d = n → n - 1 ≤ ts.length → n - 1 ≤ ps.length →
      ∃ f, hiddenLoop nl ts ps i n root = some f := by
  intro d
  induction d with
  | zero =>
      intro i root _ h2 _ _
      exact ⟨root, hiddenLoop_stop _ _ _ _ _ _ (by omega)⟩
  | succ d ih =>
      intro i root h1 h2 hts hps
      have hlt : i < n := by omega
      have hts' : i - 1 < ts.length := by omega
      have hps' : i - 1 < ps.length := by omega
      rw [hiddenLoop_step nl ts ps i n root _ _ hlt
        (List.getElem?_eq_getElem hts') (List.getElem?_eq_getElem hps')]
      exact ih (i + 1) _ (by omega) (by omega) hts hps

theorem hiddenLoop_step_none (nl : Func → Func) (ts ps : List Func)
    (i n : Nat) (root : Func) (h : i < n) (ht : ts[i - 1]? = none) :
    hiddenLoop nl ts ps i n root = none := by
  conv_lhs => rw [hiddenLoop]
  simp [h, ht]

/-- With hidden-parameter arrays shorter than `numHiddenLayers - 1`, the
loop does reach an out-of-range index. -/
theorem hiddenLoop_oob (nl : Func → Func) (n : Nat) :
    ∀ d (ts ps : List Func) i root, 1 ≤ i → i + d = n →
      i ≤ ts.length + 1 → ts.length < n - 1 → ps.length = ts.length →
      hiddenLoop nl ts ps i n root = none := by
  intro d
  induction d with
  | zero => intro ts ps i root h1 h2 h3 h4 _; omega
  | succ d ih =>
      intro ts ps i root h1 h2 h3 h4 h5
      have hlt : i < n := by omega
      by_cases hc : i - 1 < ts.length
      · rw [hiddenLoop_step nl ts ps i n root _ _ hlt
          (List.getElem?_eq_getElem hc)
          (List.getElem?_eq_getElem (by omega))]
        exact ih ts ps (i + 1) _ (by omega) (by omega) (by omega) h4 h5
      · exact hiddenLoop_step_none nl ts ps i n root hlt
          (List.getElem?_eq_none (by omega))

/-- C8. For every `numHiddenLayers ≥ 1`, with hidden-parameter arrays of
length `numHiddenLayers - 1` the loop accesses only indices `0` through
`numHiddenLayers - 2`, so every access is in bounds and the out-of-range
branch is unreachable (the loop yields `some`); any shorter array does hit
the out-of-range branch, showing index `numHiddenLayers - 2` really is
accessed. The call made by this program (`EvalMultiThreadsWithNewNetwork`)
satisfies the precondition: `numHiddenLayers = 6 ≥ 1`, arrays of length
`6 - 1`, and its build succeeds. -/
theorem claim_C8_hidden_index_bounds (nl : Func → Func) (H : Nat)
    (ts ps : List Func) (root : Func) (hH : 1 ≤ H)
    (hts : ts.length = H - 1) (hps : ps.length = H - 1) :
    (∃ f, hiddenLoop nl ts ps 1 H root = some f) ∧
    (∀ ts' ps' : List Func, ts'.length < H - 1 → ps'.length = ts'.length →
      hiddenLoop nl ts' ps' 1 H root = none) ∧
    ((1 : Nat) ≤ 6 ∧ (stdParamsFor 6).hiddenTimes.length = 6 - 1 ∧
      (stdParamsFor 6).hiddenPlus.length = 6 - 1 ∧
      EvaluationNewNetworkBuild 937 9304 6 (stdParamsFor 6) ≠ none) := by
  refine ⟨hiddenLoop_total nl ts ps H (H - 1) 1 root (le_refl _) (by omega)
      (by omega) (by omega), ?_, by omega, by decide, by decide, ?_⟩
  · intro ts' ps' hlt hlen
    exact hiddenLoop_oob nl H (H - 1) ts' ps' 1 root (le_refl _) (by omega)
      (by omega) hlt hlen
  · rw [buildNet_eq 937 9304 6 (by omega)]
    simp

/-- Closed witness for C8 at `numHiddenLayers = 3` with arrays of length
2: in bounds with the correct length, out of range with empty arrays. -/
theorem claim_C8_witness :
    (∃ f, hiddenLoop Func.sigmoid [Func.param 2, Func.param 3]
      [Func.param 4, Func.param 5] 1 3 (Func.param 7) = some f) ∧
    hiddenLoop Func.sigmoid [] [] 1 3 (Func.param 7) = none :=
  ⟨(claim_C8_hidden_index_bounds Func.sigmoid 3 [Func.param 2, Func.param 3]
      [Func.param 4, Func.param 5] (Func.param 7) (by decide) (by decide)
      (by decide)).1,
    (claim_C8_hidden_index_bounds Func.sigmoid 3 [Func.param 2, Func.param 3]
      [Func.param 4, Func.param 5] (Func.param 7) (by decide) (by decide)
      (by decide)).2.1 [] [] (by decide) rfl⟩

/-- `SetupFullyConnectedLinearLayer` (lines 150-160): allocates a fresh
`Times` parameter (id `ctr`) and a fresh `Plus` parameter (id `ctr + 1`) and
returns `Plus(plusParam, Times(timesParam, input))` together with the next
free id. -/
def SetupFullyConnectedLinearLayer (input : Func) (ctr : Nat) : Func × Nat :=
  (Func.plus (Func.param (ctr + 1)) (Func.times (Func.param ctr) input),
    ctr + 2)

/-- `SetupFullyConnectedDNNLayer` (lines 162-165): the linear layer under
the nonlinearity. -/
def SetupFullyConnectedDNNLayer (input : Func) (ctr : Nat)
    (nl : Func → Func) : Func × Nat :=
  (nl (SetupFullyConnectedLinearLayer input ctr).1,
    (SetupFullyConnectedLinearLayer input ctr).2)

/-- The `for (size_t i = 1; i < numHiddenLayers; ++i)` chain of lines
213-214, by remaining iteration count. -/
def cloneHiddenChain (nl : Func → Func) : Nat → Func → Nat → Func × Nat
  | 0, root, ctr => (root, ctr)
  | rem + 1, root, ctr =>
      cloneHiddenChain nl rem (SetupFullyConnectedDNNLayer root ctr nl).1
        (SetupFullyConnectedDNNLayer root ctr nl).2

/-- The classifier output of `EvalMultiThreadsWithClone` (lines 209-217):
an input variable `"features"` of dimension 937, six sigmoid layers with
freshly allocated parameters (ids 0..11), and a final `Times` with a fresh
output parameter (id 12). -/
def cloneClassifierOutput : Func :=
  Func.times
    (Func.param (cloneHiddenChain Func.sigmoid 5
      (SetupFullyConnectedDNNLayer (Func.inputVar 937 "features") 0
        Func.sigmoid).1
      (SetupFullyConnectedDNNLayer (Func.inputVar 937 "features") 0
        Func.sigmoid).2).2)
    (cloneHiddenChain Func.sigmoid 5
      (SetupFullyConnectedDNNLayer (Func.inputVar 937 "features") 0
        Func.sigmoid).1
      (SetupFullyConnectedDNNLayer (Func.inputVar 937 "features") 0
        Func.sigmoid).2).1

/-- The combined graph of `EvalMultiThreadsWithClone` (lines 219-223). -/
def cloneFFNet : Func :=
  Func.combine3
    (Func.crossEntropyWithSoftmax cloneClassifierOutput
      (Func.inputVar 9304 "Labels"))
    (Func.classificationError cloneClassifierOutput
      (Func.inputVar 9304 "Labels"))
    cloneClassifierOutput

/-- The observable behaviour of `EvalMultiThreadsWithClone` after the
structural checks: the constructed graph, the number of threads spawned,
the number of forward-evaluation calls, and the emitted diagnostics — each
diagnostic records the printed `count` together with the argument and
output collections handed to `fprintf` (line 238). -/
structure CloneTrace where
  net : Func
  threadsSpawned : Nat
  forwardEvalCalls : Nat
  diagnostics : List (Nat × List (Nat × String) × List Func)
  deriving DecidableEq, Repr

/-- `EvalMultiThreadsWithClone` (lines 200-254): builds the classifier
graph with per-call fresh parameters, runs the three structural checks
(throwing `std::runtime_error` on mismatch), then emits the single
`fprintf(stderr, "%d, %p, %p\n", count, inputVariables, outputVariables)`
diagnostic and returns. The thread-spawn and evaluation blocks are
commented out in the source, so no threads are spawned and no forward
evaluation is performed. -/
def EvalMultiThreadsWithClone (threadCount : Nat) : Except String CloneTrace :=
  if cloneFFNet.Parameters.length ≠ 6 * 2 + 1 then
    Except.error "TestFeedForwardNetworkCreation: Function does not have expected Parameter count"
  else if cloneFFNet.Arguments.length ≠ 2 then
    Except.error "TestFeedForwardNetworkCreation: Function does not have expected Argument count"
  else if cloneFFNet.Outputs.length ≠ 3 then
    Except.error "TestFeedForwardNetworkCreation: Function does not have expected Output count"
  else
    Except.ok
      { net := cloneFFNet, threadsSpawned := 0, forwardEvalCalls := 0,
        diagnostics :=
          [(threadCount, cloneFFNet.Arguments, cloneFFNet.Outputs)] }

/-- C10, amended. For every `threadCount`, `EvalMultiThreadsWithClone`
constructs and structurally validates the classifier graph (the three
counts are 13, 2, 3, so validation passes), spawns no threads, performs no
forward evaluation, emits exactly one diagnostic line and returns;
`threadCount` influences only the content of that diagnostic line — it is
printed in it — and nothing else. -/
theorem claim_C10_amended (threadCount : Nat) :
    EvalMultiThreadsWithClone threadCount =
      Except.ok
        { net := cloneFFNet, threadsSpawned := 0, forwardEvalCalls := 0,
          diagnostics :=
            [(threadCount, cloneFFNet.Arguments, cloneFFNet.Outputs)] } ∧
    cloneFFNet.Parameters.length = 6 * 2 + 1 ∧
    cloneFFNet.Arguments.length = 2 ∧ cloneFFNet.Outputs.length = 3 := by
  refine ⟨?_, by decide, by decide, by decide⟩
  unfold EvalMultiThreadsWithClone
  rw [if_neg (by decide), if_neg (by decide), if_neg (by decide)]

/-- Counterexample to C10 as stated: `threadCount` does affect the
computation, because the emitted diagnostic line prints it — the runs for
thread counts 1 and 2 differ. -/
theorem claim_C10_counterexample :
    (EvalMultiThreadsWithClone 1).toOption ≠
      (EvalMultiThreadsWithClone 2).toOption := by decide

end EvalMultithreads
